import Mathlib

/-!
Verification of the mediapod asset lifecycle against its Go sources.

Shallow embedding of:
- `services/media-api/internal/api/video.go` (`CompleteUpload`, `ListAssets`),
- `services/media-worker/internal/processor/processor.go`
  (`TranscodeVideo`, `transcodeToHLS`),
- the `processing_jobs` table from `services/media-api/internal/db/db.go`.

External effects (Postgres, MinIO, Redis, ffmpeg/ffprobe) are modelled as
explicit state (lists of rows, a FIFO job list, uploaded-object lists) and,
for the worker pipeline, a record of booleans saying which external
invocation succeeds.
-/

namespace Mediapod

/-- Asset lifecycle states (`assets.state` CHECK constraint in db.go). -/
inductive AssetState where
  | uploading
  | processing
  | ready
  | failed
deriving DecidableEq, Repr

/-- Asset kinds (`assets.kind` CHECK constraint in db.go). -/
inductive AssetKind where
  | image
  | video
  | audio
  | document
deriving DecidableEq, Repr

/-- A row of the `assets` table (the columns the modelled code touches). -/
structure Asset where
  id : Nat
  kind : AssetKind
  state : AssetState
  bucket : String
  objectKey : String
  filename : String
  mimeType : String
  sizeBytes : Int
  createdAt : Nat
deriving DecidableEq, Repr

/-- A row of the `processing_jobs` table (db.go lines 184-196). -/
structure ProcessingJobRow where
  id : Nat
  assetId : Nat
  jobType : String
  state : String
  priority : Int
  attempts : Nat
  maxAttempts : Nat
deriving DecidableEq, Repr

/-- A queue job as serialized by `CompleteUpload` in video.go:
`Job{ID, AssetID, Type}` pushed onto the Redis list `media:jobs:pending`. -/
structure Job where
  id : Nat
  assetId : Nat
  jobType : String
deriving DecidableEq, Repr

/-- State visible to the media-api handler: the `assets` table, the
`processing_jobs` table, and the Redis job list (tail = RPush end). -/
structure ApiState where
  assets : List Asset
  processingJobs : List ProcessingJobRow
  queue : List Job
deriving DecidableEq, Repr

/-- Outcome of `CompleteUpload` as surfaced over HTTP. -/
inductive CompleteResult where
  | ok (state : AssetState)
  | notFound
  | internalError
deriving DecidableEq, Repr

/-- The WHERE clause of the guarded update in `CompleteUpload`:
`WHERE id = $1 AND state = 'uploading'`. -/
def guardHit (aid : Nat) (a : Asset) : Bool :=
  a.id == aid && a.state == AssetState.uploading

/-- Effect of `UPDATE assets SET state = 'processing' WHERE id = $1 AND
state = 'uploading'` on one row. -/
def applyGuard (aid : Nat) (a : Asset) : Asset :=
  if guardHit aid a then { a with state := AssetState.processing } else a

/-- Effect of `UPDATE assets SET state = $1 WHERE id = $2` on the table. -/
def setStateById (l : List Asset) (aid : Nat) (st : AssetState) : List Asset :=
  l.map (fun a => if a.id == aid then { a with state := st } else a)

/-- `CompleteUpload` from video.go lines 278-364: run the state-guarded
update; if no row was affected answer 404; otherwise select the kind and
branch (image -> ready, video -> enqueue a transcode job and stay in
processing, audio/document -> ready). `jid` is the fresh job UUID. -/
def completeUpload (s : ApiState) (aid : Nat) (jid : Nat) :
    ApiState × CompleteResult :=
  let updated := s.assets.map (applyGuard aid)
  let rowsAffected := s.assets.countP (guardHit aid)
  let s1 : ApiState := { s with assets := updated }
  if rowsAffected = 0 then
    (s1, CompleteResult.notFound)
  else
    match updated.find? (fun b => b.id == aid) with
    | none => (s1, CompleteResult.internalError)
    | some b =>
      match b.kind with
      | AssetKind.image =>
        ({ s1 with assets := setStateById s1.assets aid AssetState.ready },
          CompleteResult.ok AssetState.ready)
      | AssetKind.video =>
        ({ s1 with queue := s1.queue ++ [⟨jid, aid, "transcode"⟩] },
          CompleteResult.ok AssetState.processing)
      | _ =>
        ({ s1 with assets := setStateById s1.assets aid AssetState.ready },
          CompleteResult.ok AssetState.ready)

lemma applyGuard_id (aid : Nat) (x : Asset) : (applyGuard aid x).id = x.id := by
  by_cases h : guardHit aid x <;> simp [applyGuard, h]

lemma applyGuard_kind (aid : Nat) (x : Asset) :
    (applyGuard aid x).kind = x.kind := by
  by_cases h : guardHit aid x <;> simp [applyGuard, h]

lemma eq_of_mem_of_id_eq {l : List Asset} (hn : (l.map Asset.id).Nodup) :
    ∀ {x y : Asset}, x ∈ l → y ∈ l → x.id = y.id → x = y := by
  induction l with
  | nil => intro x y hx _ _; cases hx
  | cons h t ih =>
    rw [List.map_cons, List.nodup_cons] at hn
    intro x y hx hy hxy
    rcases List.mem_cons.mp hx with hx1 | hx2
    · rcases List.mem_cons.mp hy with hy1 | hy2
      · rw [hx1, hy1]
      · exfalso
        apply hn.1
        rw [← hx1, hxy]
        exact List.mem_map_of_mem Asset.id hy2
    · rcases List.mem_cons.mp hy with hy1 | hy2
      · exfalso
        apply hn.1
        rw [← hy1, ← hxy]
        exact List.mem_map_of_mem Asset.id hx2
      · exact ih hn.2 hx2 hy2 hxy

lemma find?_map_applyGuard {l : List Asset} {a : Asset}
    (hn : (l.map Asset.id).Nodup) (ha : a ∈ l) :
    (l.map (applyGuard a.id)).find? (fun b => b.id == a.id) =
      some (applyGuard a.id a) := by
  induction l with
  | nil => cases ha
  | cons h t ih =>
    rw [List.map_cons, List.nodup_cons] at hn
    rcases List.mem_cons.mp ha with rfl | hat
    · have hb : ((applyGuard a.id a).id == a.id) = true := by
        simp [applyGuard_id]
      rw [List.map_cons, List.find?_cons, hb]
    · have hne : h.id ≠ a.id := by
        intro he
        exact hn.1 (by rw [he]; exact List.mem_map_of_mem Asset.id hat)
      have hb : ((applyGuard a.id h).id == a.id) = false := by
        simp [applyGuard_id, hne]
      rw [List.map_cons, List.find?_cons, hb]
      exact ih hn.2 hat

lemma countP_guard_ne_zero {l : List Asset} {a : Asset}
    (ha : a ∈ l) (hst : a.state = AssetState.uploading) :
    l.countP (guardHit a.id) ≠ 0 := by
  intro h0
  have := List.countP_eq_zero.mp h0 a ha
  simp [guardHit, hst] at this

lemma applyGuard_of_uploading {a : Asset} (hst : a.state = AssetState.uploading) :
    applyGuard a.id a = { a with state := AssetState.processing } := by
  simp [applyGuard, guardHit, hst]

lemma completeUpload_video_eq (s : ApiState) (a : Asset) (jid : Nat)
    (hn : (s.assets.map Asset.id).Nodup)
    (ha : a ∈ s.assets)
    (hkind : a.kind = AssetKind.video)
    (hst : a.state = AssetState.uploading) :
    completeUpload s a.id jid =
      (⟨s.assets.map (applyGuard a.id), s.processingJobs,
          s.queue ++ [⟨jid, a.id, "transcode"⟩]⟩,
        CompleteResult.ok AssetState.processing) := by
  have hrows := countP_guard_ne_zero ha hst
  have hfind := find?_map_applyGuard hn ha
  simp only [completeUpload, if_neg hrows, hfind,
    applyGuard_of_uploading hst, hkind]

lemma completeUpload_image_eq (s : ApiState) (a : Asset) (jid : Nat)
    (hn : (s.assets.map Asset.id).Nodup)
    (ha : a ∈ s.assets)
    (hkind : a.kind = AssetKind.image)
    (hst : a.state = AssetState.uploading) :
    completeUpload s a.id jid =
      (⟨setStateById (s.assets.map (applyGuard a.id)) a.id AssetState.ready,
          s.processingJobs, s.queue⟩,
        CompleteResult.ok AssetState.ready) := by
  have hrows := countP_guard_ne_zero ha hst
  have hfind := find?_map_applyGuard hn ha
  simp only [completeUpload, if_neg hrows, hfind,
    applyGuard_of_uploading hst, hkind]

/-- C1: For a video asset in `uploading` state, `CompleteUpload` answers
`processing`, appends exactly one `transcode` job for this asset to the job
queue (and nothing else), and leaves the asset in state `processing`. -/
theorem completeUpload_video_enqueues_transcode
    (s : ApiState) (a : Asset) (aid jid : Nat)
    (hn : (s.assets.map Asset.id).Nodup)
    (ha : a ∈ s.assets) (hid : a.id = aid)
    (hkind : a.kind = AssetKind.video)
    (hst : a.state = AssetState.uploading) :
    (completeUpload s aid jid).2 = CompleteResult.ok AssetState.processing ∧
    (completeUpload s aid jid).1.queue = s.queue ++ [⟨jid, aid, "transcode"⟩] ∧
    ∀ b ∈ (completeUpload s aid jid).1.assets,
      b.id = aid → b.state = AssetState.processing := by
  subst hid
  rw [completeUpload_video_eq s a jid hn ha hkind hst]
  refine ⟨rfl, rfl, ?_⟩
  intro b hb hbid
  rcases List.mem_map.mp hb with ⟨x, hx, rfl⟩
  have hxid : x.id = a.id := by rw [← applyGuard_id a.id x, hbid]
  have hxa : x = a := eq_of_mem_of_id_eq hn hx ha hxid
  subst hxa
  rw [applyGuard_of_uploading hst]

/-- Concrete video asset used by witnesses. -/
def sampleVideo : Asset :=
  ⟨1, AssetKind.video, AssetState.uploading, "media-originals",
    "2025/01/01/v1.mp4", "v1.mp4", "video/mp4", 1048576, 10⟩

/-- Concrete image asset used by witnesses. -/
def sampleImage : Asset :=
  ⟨2, AssetKind.image, AssetState.uploading, "media-originals",
    "2025/01/01/v2.jpg", "v2.jpg", "image/jpeg", 2048, 11⟩

/-- Concrete API state used by witnesses. -/
def sampleApiState : ApiState := ⟨[sampleVideo, sampleImage], [], []⟩

theorem completeUpload_video_enqueues_transcode_witness :
    (completeUpload sampleApiState 1 7).2 =
      CompleteResult.ok AssetState.processing ∧
    (completeUpload sampleApiState 1 7).1.queue = [] ++ [⟨7, 1, "transcode"⟩] ∧
    ∀ b ∈ (completeUpload sampleApiState 1 7).1.assets,
      b.id = 1 → b.state = AssetState.processing :=
  completeUpload_video_enqueues_transcode sampleApiState sampleVideo 1 7
    (by decide) (by decide) (by decide) (by decide) (by decide)

lemma setStateById_state {l : List Asset} {aid : Nat} {st : AssetState} :
    ∀ b ∈ setStateById l aid st, b.id = aid → b.state = st := by
  intro b hb hbid
  rcases List.mem_map.mp hb with ⟨x, hx, rfl⟩
  by_cases h : x.id = aid
  · simp [h]
  · have hfalse : (x.id == aid) = false := by simp [h]
    rw [hfalse] at hbid
    simp at hbid
    exact absurd hbid h

/-- C5: For an image asset in `uploading` state, `CompleteUpload` moves the
asset synchronously to `ready`, enqueues nothing, and answers `ready`. -/
theorem completeUpload_image_ready
    (s : ApiState) (a : Asset) (aid jid : Nat)
    (hn : (s.assets.map Asset.id).Nodup)
    (ha : a ∈ s.assets) (hid : a.id = aid)
    (hkind : a.kind = AssetKind.image)
    (hst : a.state = AssetState.uploading) :
    (completeUpload s aid jid).2 = CompleteResult.ok AssetState.ready ∧
    (completeUpload s aid jid).1.queue = s.queue ∧
    ∀ b ∈ (completeUpload s aid jid).1.assets,
      b.id = aid → b.state = AssetState.ready := by
  subst hid
  rw [completeUpload_image_eq s a jid hn ha hkind hst]
  exact ⟨rfl, rfl, setStateById_state⟩

theorem completeUpload_image_ready_witness :
    (completeUpload sampleApiState 2 7).2 = CompleteResult.ok AssetState.ready ∧
    (completeUpload sampleApiState 2 7).1.queue = [] ∧
    ∀ b ∈ (completeUpload sampleApiState 2 7).1.assets,
      b.id = 2 → b.state = AssetState.ready :=
  completeUpload_image_ready sampleApiState sampleImage 2 7
    (by decide) (by decide) (by decide) (by decide) (by decide)

lemma guardHit_false_of_guardmap {l : List Asset} {a : Asset}
    (hn : (l.map Asset.id).Nodup) (ha : a ∈ l)
    (hst : a.state = AssetState.uploading) :
    ∀ b ∈ l.map (applyGuard a.id), guardHit a.id b = false := by
  intro b hb
  rcases List.mem_map.mp hb with ⟨x, hx, rfl⟩
  by_cases hxid : x.id = a.id
  · have hxa : x = a := eq_of_mem_of_id_eq hn hx ha hxid
    subst hxa
    rw [applyGuard_of_uploading hst]
    simp [guardHit]
  · simp [guardHit, applyGuard_id, hxid]

lemma guardHit_false_of_setReady {l : List Asset} {aid : Nat} :
    ∀ b ∈ setStateById l aid AssetState.ready, guardHit aid b = false := by
  intro b hb
  by_cases hbid : b.id = aid
  · have := setStateById_state b hb hbid
    simp [guardHit, this]
  · simp [guardHit, hbid]

lemma guardHit_false_after (s : ApiState) (a : Asset) (jid : Nat)
    (hn : (s.assets.map Asset.id).Nodup)
    (ha : a ∈ s.assets) (hst : a.state = AssetState.uploading) :
    ∀ b ∈ (completeUpload s a.id jid).1.assets, guardHit a.id b = false := by
  have hrows := countP_guard_ne_zero ha hst
  have hfind := find?_map_applyGuard hn ha
  cases hk : a.kind <;>
    simp only [completeUpload, if_neg hrows, hfind,
      applyGuard_of_uploading hst, hk]
  · exact guardHit_false_of_setReady
  · exact guardHit_false_of_guardmap hn ha hst
  · exact guardHit_false_of_setReady
  · exact guardHit_false_of_setReady

lemma map_applyGuard_eq_self {l : List Asset} {aid : Nat}
    (h : ∀ b ∈ l, guardHit aid b = false) : l.map (applyGuard aid) = l := by
  induction l with
  | nil => rfl
  | cons x t ih =>
    have hx := h x (List.mem_cons_self x t)
    rw [List.map_cons, ih (fun b hb => h b (List.mem_cons_of_mem x hb))]
    simp [applyGuard, hx]

/-- C2: After a successful `CompleteUpload` (asset was in `uploading`), a
second `CompleteUpload` on the same id fails with NotFound, whatever the
asset's kind, and leaves the whole state unchanged. -/
theorem completeUpload_second_call_notFound
    (s : ApiState) (a : Asset) (aid j1 j2 : Nat)
    (hn : (s.assets.map Asset.id).Nodup)
    (ha : a ∈ s.assets) (hid : a.id = aid)
    (hst : a.state = AssetState.uploading) :
    (∃ st, (completeUpload s aid j1).2 = CompleteResult.ok st) ∧
    (completeUpload (completeUpload s aid j1).1 aid j2).2 =
      CompleteResult.notFound ∧
    (completeUpload (completeUpload s aid j1).1 aid j2).1 =
      (completeUpload s aid j1).1 := by
  subst hid
  have hrows := countP_guard_ne_zero ha hst
  have hfind := find?_map_applyGuard hn ha
  constructor
  · cases hk : a.kind <;>
      simp only [completeUpload, if_neg hrows, hfind,
        applyGuard_of_uploading hst, hk] <;>
      exact ⟨_, rfl⟩
  · have hfalse := guardHit_false_after s a j1 hn ha hst
    obtain ⟨s1, hs1⟩ : ∃ s1, (completeUpload s a.id j1).1 = s1 := ⟨_, rfl⟩
    rw [hs1] at hfalse ⊢
    have hrows2 : s1.assets.countP (guardHit a.id) = 0 :=
      List.countP_eq_zero.mpr (fun b hb => by simp [hfalse b hb])
    have hmap : s1.assets.map (applyGuard a.id) = s1.assets :=
      map_applyGuard_eq_self hfalse
    constructor
    · simp only [completeUpload, if_pos hrows2]
    · simp only [completeUpload, if_pos hrows2, hmap]

theorem completeUpload_second_call_notFound_witness :
    (∃ st, (completeUpload sampleApiState 1 4).2 = CompleteResult.ok st) ∧
    (completeUpload (completeUpload sampleApiState 1 4).1 1 5).2 =
      CompleteResult.notFound ∧
    (completeUpload (completeUpload sampleApiState 1 4).1 1 5).1 =
      (completeUpload sampleApiState 1 4).1 :=
  completeUpload_second_call_notFound sampleApiState sampleVideo 1 4 5
    (by decide) (by decide) (by decide) (by decide)

/-- C8 counterexample: completing the upload of a video asset enqueues work
on the job queue but creates no row at all in the processing_jobs table
(which stays empty), so no ProcessingJob record referencing the asset is
created in the processing_jobs store. -/
theorem completeUpload_no_processingJobs_row :
    (completeUpload sampleApiState 1 7).2 =
      CompleteResult.ok AssetState.processing ∧
    (completeUpload sampleApiState 1 7).1.queue ≠ [] ∧
    (completeUpload sampleApiState 1 7).1.processingJobs = [] ∧
    ¬ ∃ pj ∈ (completeUpload sampleApiState 1 7).1.processingJobs,
        pj.assetId = 1 := by
  decide

/-- C8 (amended): when the orchestrator enqueues processing work for a video
asset, exactly one transcode job referencing the asset is pushed onto the
Redis job queue, and the processing_jobs database table is left untouched. -/
theorem completeUpload_video_job_is_queue_resident
    (s : ApiState) (a : Asset) (aid jid : Nat)
    (hn : (s.assets.map Asset.id).Nodup)
    (ha : a ∈ s.assets) (hid : a.id = aid)
    (hkind : a.kind = AssetKind.video)
    (hst : a.state = AssetState.uploading) :
    (completeUpload s aid jid).1.queue = s.queue ++ [⟨jid, aid, "transcode"⟩] ∧
    (completeUpload s aid jid).1.processingJobs = s.processingJobs := by
  subst hid
  rw [completeUpload_video_eq s a jid hn ha hkind hst]
  exact ⟨rfl, rfl⟩

theorem completeUpload_video_job_is_queue_resident_witness :
    (completeUpload sampleApiState 1 8).1.queue =
      [] ++ [⟨8, 1, "transcode"⟩] ∧
    (completeUpload sampleApiState 1 8).1.processingJobs = [] :=
  completeUpload_video_job_is_queue_resident sampleApiState sampleVideo 1 8
    (by decide) (by decide) (by decide) (by decide) (by decide)

/-- A row of the `asset_meta` table, the columns written by the worker
(`INSERT INTO asset_meta (asset_id, width, height, duration_seconds, codec)`
in processor.go). -/
structure AssetMetaRow where
  assetId : Nat
  width : Int
  height : Int
  durationSeconds : Rat
  codec : String
deriving DecidableEq, Repr

/-- State visible to the media-worker processor: the `assets` and
`asset_meta` tables and the objects uploaded to the thumbs and VOD buckets
(recorded by object key / key prefix). -/
structure WorkerState where
  assets : List Asset
  assetMeta : List AssetMetaRow
  thumbsObjects : List String
  vodObjects : List String
deriving DecidableEq, Repr

/-- Which external invocations and stores succeed during one
`TranscodeVideo` run (ffmpeg/ffprobe, MinIO, Postgres writes). -/
structure Env where
  downloadOk : Bool
  metadataOk : Bool
  metaSaveOk : Bool
  transcodeOk : Bool
  posterOk : Bool
  posterUploadOk : Bool
  hlsUploadOk : Bool
  finalUpdateOk : Bool
deriving DecidableEq, Repr

/-- The metadata `extractVideoMetadata` reports on success (processor.go
returns fixed values from its simplified ffprobe parse: 1920x1080, 120.5s,
h264). -/
def extractedMetadata (aid : Nat) : AssetMetaRow :=
  ⟨aid, 1920, 1080, (241 : Rat) / 2, "h264"⟩

/-- Effect of the `INSERT ... ON CONFLICT (asset_id) DO UPDATE` upsert on
the asset_meta table. -/
def upsertMeta (l : List AssetMetaRow) (row : AssetMetaRow) :
    List AssetMetaRow :=
  if l.any (fun m => m.assetId == row.assetId) then
    l.map (fun m => if m.assetId == row.assetId then row else m)
  else l ++ [row]

/-- Effect of `UPDATE assets SET state = $1 WHERE id = $2` issued by the
worker. -/
def setAssetState (l : List Asset) (aid : Nat) (st : AssetState) :
    List Asset :=
  l.map (fun a => if a.id == aid then { a with state := st } else a)

/-- `TranscodeVideo` from processor.go lines 55-137: select the asset row;
download the original (fatal on failure, no writes yet); extract metadata
and upsert asset_meta (both failures only logged); transcode to HLS (on
failure set state failed and error out); generate and upload the poster
(failures only logged); upload the HLS directory (on failure set state
failed and error out); finally set state ready (error out if that update
fails). -/
def transcodeVideo (env : Env) (st : WorkerState) (aid : Nat) :
    WorkerState × Except String Unit :=
  match st.assets.find? (fun a => a.id == aid) with
  | none => (st, Except.error "failed to get asset info")
  | some _ =>
    if env.downloadOk then
      let st1 :=
        if env.metadataOk && env.metaSaveOk then
          { st with assetMeta := upsertMeta st.assetMeta (extractedMetadata aid) }
        else st
      if env.transcodeOk then
        let st2 :=
          if env.posterOk && env.posterUploadOk then
            { st1 with thumbsObjects :=
                st1.thumbsObjects ++ [toString aid ++ "/poster.jpg"] }
          else st1
        if env.hlsUploadOk then
          let st3 := { st2 with vodObjects :=
              st2.vodObjects ++ [toString aid ++ "/hls"] }
          if env.finalUpdateOk then
            ({ st3 with assets := setAssetState st3.assets aid AssetState.ready },
              Except.ok ())
          else (st3, Except.error "failed to update asset state")
        else
          ({ st2 with assets := setAssetState st2.assets aid AssetState.failed },
            Except.error "failed to upload HLS files")
      else
        ({ st1 with assets := setAssetState st1.assets aid AssetState.failed },
          Except.error "failed to transcode")
    else (st, Except.error "failed to download original")

lemma setAssetState_state {l : List Asset} {aid : Nat} {st : AssetState} :
    ∀ b ∈ setAssetState l aid st, b.id = aid → b.state = st := by
  intro b hb hbid
  rcases List.mem_map.mp hb with ⟨x, hx, rfl⟩
  by_cases h : x.id = aid
  · simp [h]
  · have hfalse : (x.id == aid) = false := by simp [h]
    rw [hfalse] at hbid
    simp at hbid
    exact absurd hbid h

lemma find?_isSome_of_mem {l : List Asset} {a : Asset} {aid : Nat}
    (ha : a ∈ l) (hid : a.id = aid) :
    ∃ x, l.find? (fun b => b.id == aid) = some x := by
  cases hfind : l.find? (fun b => b.id == aid) with
  | some x => exact ⟨x, rfl⟩
  | none =>
    have := List.find?_eq_none.mp hfind a ha
    simp [hid] at this

/-- C3: If the HLS transcoding stage fails, `TranscodeVideo` sets the
asset's state to exactly `failed` and returns an error, and it has uploaded
nothing to the VOD bucket, so no `ready` asset can reference partial HLS
output of this job. -/
theorem transcodeVideo_hls_failure_marks_failed
    (env : Env) (st : WorkerState) (a : Asset) (aid : Nat)
    (ha : a ∈ st.assets) (hid : a.id = aid)
    (hdl : env.downloadOk = true) (htc : env.transcodeOk = false) :
    (transcodeVideo env st aid).2 = Except.error "failed to transcode" ∧
    (∀ b ∈ (transcodeVideo env st aid).1.assets,
      b.id = aid → b.state = AssetState.failed) ∧
    (transcodeVideo env st aid).1.vodObjects = st.vodObjects := by
  obtain ⟨x, hfind⟩ := find?_isSome_of_mem ha hid
  by_cases hmeta : (env.metadataOk && env.metaSaveOk) = true <;>
    simp only [transcodeVideo, hfind, hdl, htc, hmeta, if_true, if_false,
      Bool.false_eq_true, ite_true, ite_false] <;>
    exact ⟨trivial, setAssetState_state, trivial⟩

/-- Concrete worker state used by processor witnesses: one video asset in
`processing` state. -/
def sampleWorkerState : WorkerState :=
  ⟨[⟨1, AssetKind.video, AssetState.processing, "media-originals",
      "2025/01/01/v1.mp4", "v1.mp4", "video/mp4", 1048576, 10⟩], [], [], []⟩

theorem transcodeVideo_hls_failure_marks_failed_witness :
    (transcodeVideo ⟨true, true, true, false, true, true, true, true⟩
        sampleWorkerState 1).2 = Except.error "failed to transcode" ∧
    (∀ b ∈ (transcodeVideo ⟨true, true, true, false, true, true, true, true⟩
        sampleWorkerState 1).1.assets,
      b.id = 1 → b.state = AssetState.failed) ∧
    (transcodeVideo ⟨true, true, true, false, true, true, true, true⟩
        sampleWorkerState 1).1.vodObjects = sampleWorkerState.vodObjects :=
  transcodeVideo_hls_failure_marks_failed
    ⟨true, true, true, false, true, true, true, true⟩ sampleWorkerState
    ⟨1, AssetKind.video, AssetState.processing, "media-originals",
      "2025/01/01/v1.mp4", "v1.mp4", "video/mp4", 1048576, 10⟩ 1
    (by decide) (by decide) (by decide) (by decide)

/-- C4: If metadata extraction fails but transcoding, HLS upload and the
final update succeed, `TranscodeVideo` still succeeds, the asset reaches
`ready`, and the asset_meta table is exactly as before the run (an absent
row stays absent, prior values are retained). -/
theorem transcodeVideo_metadata_failure_nonfatal
    (env : Env) (st : WorkerState) (a : Asset) (aid : Nat)
    (ha : a ∈ st.assets) (hid : a.id = aid)
    (hdl : env.downloadOk = true) (hmeta : env.metadataOk = false)
    (htc : env.transcodeOk = true) (hup : env.hlsUploadOk = true)
    (hfin : env.finalUpdateOk = true) :
    (transcodeVideo env st aid).2 = Except.ok () ∧
    (∀ b ∈ (transcodeVideo env st aid).1.assets,
      b.id = aid → b.state = AssetState.ready) ∧
    (transcodeVideo env st aid).1.assetMeta = st.assetMeta := by
  obtain ⟨x, hfind⟩ := find?_isSome_of_mem ha hid
  by_cases hposter : (env.posterOk && env.posterUploadOk) = true <;>
    simp only [transcodeVideo, hfind, hdl, hmeta, htc, hup, hfin, hposter,
      Bool.false_and, Bool.false_eq_true, if_true, if_false, ite_true,
      ite_false] <;>
    exact ⟨trivial, setAssetState_state, trivial⟩

theorem transcodeVideo_metadata_failure_nonfatal_witness :
    (transcodeVideo ⟨true, false, true, true, true, true, true, true⟩
        sampleWorkerState 1).2 = Except.ok () ∧
    (∀ b ∈ (transcodeVideo ⟨true, false, true, true, true, true, true, true⟩
        sampleWorkerState 1).1.assets,
      b.id = 1 → b.state = AssetState.ready) ∧
    (transcodeVideo ⟨true, false, true, true, true, true, true, true⟩
        sampleWorkerState 1).1.assetMeta = sampleWorkerState.assetMeta :=
  transcodeVideo_metadata_failure_nonfatal
    ⟨true, false, true, true, true, true, true, true⟩ sampleWorkerState
    ⟨1, AssetKind.video, AssetState.processing, "media-originals",
      "2025/01/01/v1.mp4", "v1.mp4", "video/mp4", 1048576, 10⟩ 1
    (by decide) (by decide) (by decide) (by decide) (by decide) (by decide)
    (by decide)

/-- C9: If downloading the original fails, `TranscodeVideo` returns an error
having written nothing: the whole state (asset row included) is unchanged,
so an asset that was in `processing` stays in `processing`. -/
theorem transcodeVideo_download_failure_leaves_state
    (env : Env) (st : WorkerState) (a : Asset) (aid : Nat)
    (ha : a ∈ st.assets) (hid : a.id = aid)
    (hst : a.state = AssetState.processing)
    (hdl : env.downloadOk = false) :
    (transcodeVideo env st aid).2 = Except.error "failed to download original" ∧
    (transcodeVideo env st aid).1 = st ∧
    a ∈ (transcodeVideo env st aid).1.assets ∧
    a.state = AssetState.processing := by
  obtain ⟨x, hfind⟩ := find?_isSome_of_mem ha hid
  simp only [transcodeVideo, hfind, hdl, Bool.false_eq_true, ite_false,
    if_false]
  exact ⟨trivial, trivial, ha, hst⟩

theorem transcodeVideo_download_failure_leaves_state_witness :
    (transcodeVideo ⟨false, true, true, true, true, true, true, true⟩
        sampleWorkerState 1).2 =
      Except.error "failed to download original" ∧
    (transcodeVideo ⟨false, true, true, true, true, true, true, true⟩
        sampleWorkerState 1).1 = sampleWorkerState ∧
    (⟨1, AssetKind.video, AssetState.processing, "media-originals",
        "2025/01/01/v1.mp4", "v1.mp4", "video/mp4", 1048576, 10⟩ : Asset) ∈
      (transcodeVideo ⟨false, true, true, true, true, true, true, true⟩
        sampleWorkerState 1).1.assets ∧
    (⟨1, AssetKind.video, AssetState.processing, "media-originals",
        "2025/01/01/v1.mp4", "v1.mp4", "video/mp4", 1048576, 10⟩ : Asset).state =
      AssetState.processing :=
  transcodeVideo_download_failure_leaves_state
    ⟨false, true, true, true, true, true, true, true⟩ sampleWorkerState
    ⟨1, AssetKind.video, AssetState.processing, "media-originals",
      "2025/01/01/v1.mp4", "v1.mp4", "video/mp4", 1048576, 10⟩ 1
    (by decide) (by decide) (by decide) (by decide)

/-- The ffmpeg argument list built by `transcodeToHLS` in processor.go
lines 225-291: base video maps, an audio block only when `videoHasAudio`
reported an audio stream, the four-rung encoding settings, the variant
stream map matching the audio decision, and the HLS output settings. -/
def transcodeToHLSArgs (hasAudio : Bool) (inputPath outputDir : String) :
    List String :=
  let args := ["-i", inputPath, "-c:v", "libx264", "-preset", "fast",
    "-map", "0:v:0", "-map", "0:v:0", "-map", "0:v:0", "-map", "0:v:0"]
  let args := args ++
    (if hasAudio then
      ["-c:a", "aac", "-ar", "48000", "-b:a", "128k",
        "-map", "0:a:0?", "-map", "0:a:0?", "-map", "0:a:0?", "-map", "0:a:0?"]
    else [])
  let args := args ++
    ["-s:v:0", "1920x1080", "-b:v:0", "5000k",
      "-maxrate:v:0", "5350k", "-bufsize:v:0", "7500k",
      "-s:v:1", "1280x720", "-b:v:1", "3000k",
      "-maxrate:v:1", "3210k", "-bufsize:v:1", "4500k",
      "-s:v:2", "854x480", "-b:v:2", "1500k",
      "-maxrate:v:2", "1605k", "-bufsize:v:2", "2250k",
      "-s:v:3", "640x360", "-b:v:3", "800k",
      "-maxrate:v:3", "856k", "-bufsize:v:3", "1200k"]
  let args := args ++
    (if hasAudio then
      ["-var_stream_map", "v:0,a:0 v:1,a:1 v:2,a:2 v:3,a:3"]
    else ["-var_stream_map", "v:0 v:1 v:2 v:3"])
  args ++ ["-master_pl_name", "master.m3u8", "-f", "hls", "-hls_time", "6",
    "-hls_list_size", "0", "-hls_segment_filename",
    outputDir ++ "/v%v/seg-%03d.ts", outputDir ++ "/v%v/playlist.m3u8"]

/-- The value following the first occurrence of `flag` in a flag/value
argument list (scans adjacent pairs). -/
def argValue : List String → String → Option String
  | [], _ => none
  | [_], _ => none
  | a :: b :: rest, flag => if a = flag then some b else argValue (b :: rest) flag

/-- Parse a decimal digit string (accumulator form). -/
def parseDigits : List Char → Nat → Option Nat
  | [], acc => some acc
  | c :: cs, acc =>
    if c.isDigit then parseDigits cs (acc * 10 + (c.toNat - 48)) else none

/-- Parse an ffmpeg bitrate value of the form `<n>k` to `n`. -/
def parseKilo (s : String) : Option Nat :=
  match s.toList.reverse with
  | [] => none
  | c :: rest => if c = 'k' then parseDigits rest.reverse 0 else none

/-- Height component of an ffmpeg size value `<w>x<h>`. -/
def heightOf (s : String) : Option Nat :=
  match s.toList.dropWhile (fun c => c ≠ 'x') with
  | [] => none
  | _ :: rest => parseDigits rest 0

/-- One quality rung as read back from the argument list (heights in
pixels, rates in kbps). -/
structure Rung where
  height : Nat
  bitrateK : Nat
  maxrateK : Nat
  bufsizeK : Nat
deriving DecidableEq, Repr

/-- The parameters of rung `i` as encoded in an argument list: the values
of `-s:v:i` (height), `-b:v:i`, `-maxrate:v:i` and `-bufsize:v:i`. -/
def rungOf (args : List String) (i : Nat) : Option Rung :=
  match argValue args ("-s:v:" ++ toString i),
      argValue args ("-b:v:" ++ toString i),
      argValue args ("-maxrate:v:" ++ toString i),
      argValue args ("-bufsize:v:" ++ toString i) with
  | some sz, some b, some mr, some bs =>
    match heightOf sz, parseKilo b, parseKilo mr, parseKilo bs with
    | some h, some bn, some mn, some sn => some ⟨h, bn, mn, sn⟩
    | _, _, _, _ => none
  | _, _, _, _ => none

/-- The per-rung encoding flags of the four real rungs, the would-be fifth
rung, and the variant stream map flag: an input path colliding with one of
these would confuse the flag scan, nothing else. -/
def rungFlags : List String :=
  ["-s:v:0", "-b:v:0", "-maxrate:v:0", "-bufsize:v:0",
    "-s:v:1", "-b:v:1", "-maxrate:v:1", "-bufsize:v:1",
    "-s:v:2", "-b:v:2", "-maxrate:v:2", "-bufsize:v:2",
    "-s:v:3", "-b:v:3", "-maxrate:v:3", "-bufsize:v:3",
    "-s:v:4", "-b:v:4", "-maxrate:v:4", "-bufsize:v:4",
    "-var_stream_map"]

lemma string_append_ne {od s t : String} (h : t.length < s.length) :
    od ++ s ≠ t := by
  intro he
  have hl : (od ++ s).length = t.length := by rw [he]
  rw [String.length_append] at hl
  omega

/-- C6: With no audio stream detected the built ffmpeg invocation uses the
video-only variant stream map `v:0 v:1 v:2 v:3` and carries no audio codec
arguments at all; with audio detected the variant stream map pairs each of
the four rungs with its audio stream (`v:i,a:i`) and the audio is encoded
aac at 48000 Hz and 128k. -/
theorem transcodeToHLS_audio_handling
    (ip od : String)
    (h1 : ip ≠ "-c:a") (h2 : ip ≠ "-ar") (h3 : ip ≠ "-b:a")
    (h4 : ip ≠ "aac") (h5 : ip ≠ "-var_stream_map") :
    (argValue (transcodeToHLSArgs false ip od) "-var_stream_map" =
        some "v:0 v:1 v:2 v:3" ∧
      "-c:a" ∉ transcodeToHLSArgs false ip od ∧
      "-ar" ∉ transcodeToHLSArgs false ip od ∧
      "-b:a" ∉ transcodeToHLSArgs false ip od ∧
      "aac" ∉ transcodeToHLSArgs false ip od) ∧
    (argValue (transcodeToHLSArgs true ip od) "-var_stream_map" =
        some "v:0,a:0 v:1,a:1 v:2,a:2 v:3,a:3" ∧
      argValue (transcodeToHLSArgs true ip od) "-c:a" = some "aac" ∧
      argValue (transcodeToHLSArgs true ip od) "-ar" = some "48000" ∧
      argValue (transcodeToHLSArgs true ip od) "-b:a" = some "128k") := by
  have e1 : od ++ "/v%v/seg-%03d.ts" ≠ "-c:a" := string_append_ne (by decide)
  have e2 : od ++ "/v%v/playlist.m3u8" ≠ "-c:a" := string_append_ne (by decide)
  have e3 : od ++ "/v%v/seg-%03d.ts" ≠ "-ar" := string_append_ne (by decide)
  have e4 : od ++ "/v%v/playlist.m3u8" ≠ "-ar" := string_append_ne (by decide)
  have e5 : od ++ "/v%v/seg-%03d.ts" ≠ "-b:a" := string_append_ne (by decide)
  have e6 : od ++ "/v%v/playlist.m3u8" ≠ "-b:a" := string_append_ne (by decide)
  have e7 : od ++ "/v%v/seg-%03d.ts" ≠ "aac" := string_append_ne (by decide)
  have e8 : od ++ "/v%v/playlist.m3u8" ≠ "aac" := string_append_ne (by decide)
  refine ⟨⟨?_, ?_, ?_, ?_, ?_⟩, ?_, ?_, ?_, ?_⟩
  · simp [transcodeToHLSArgs, argValue, h5]
  · simp [transcodeToHLSArgs, Ne.symm h1, Ne.symm e1, Ne.symm e2]
  · simp [transcodeToHLSArgs, Ne.symm h2, Ne.symm e3, Ne.symm e4]
  · simp [transcodeToHLSArgs, Ne.symm h3, Ne.symm e5, Ne.symm e6]
  · simp [transcodeToHLSArgs, Ne.symm h4, Ne.symm e7, Ne.symm e8]
  · simp [transcodeToHLSArgs, argValue, h5]
  · simp [transcodeToHLSArgs, argValue, h1]
  · simp [transcodeToHLSArgs, argValue, h1, h2]
  · simp [transcodeToHLSArgs, argValue, h1, h2, h3]

theorem transcodeToHLS_audio_handling_witness :
    (argValue (transcodeToHLSArgs false "input.mp4" "out") "-var_stream_map" =
        some "v:0 v:1 v:2 v:3" ∧
      "-c:a" ∉ transcodeToHLSArgs false "input.mp4" "out" ∧
      "-ar" ∉ transcodeToHLSArgs false "input.mp4" "out" ∧
      "-b:a" ∉ transcodeToHLSArgs false "input.mp4" "out" ∧
      "aac" ∉ transcodeToHLSArgs false "input.mp4" "out") ∧
    (argValue (transcodeToHLSArgs true "input.mp4" "out") "-var_stream_map" =
        some "v:0,a:0 v:1,a:1 v:2,a:2 v:3,a:3" ∧
      argValue (transcodeToHLSArgs true "input.mp4" "out") "-c:a" =
        some "aac" ∧
      argValue (transcodeToHLSArgs true "input.mp4" "out") "-ar" =
        some "48000" ∧
      argValue (transcodeToHLSArgs true "input.mp4" "out") "-b:a" =
        some "128k") :=
  transcodeToHLS_audio_handling "input.mp4" "out"
    (by decide) (by decide) (by decide) (by decide) (by decide)

/-- C7 counterexample: in the built argument list the 1080p rung has target
bitrate 5000k, max-rate 5350k and bufsize 7500k, and 7500 is not 1.5 times
the max-rate 5350 (that would be 8025): the buffer size is 1.5 times the
target bitrate, not 1.5 times the rung's max-rate as claimed. -/
theorem transcodeToHLS_bufsize_not_maxrate_based :
    rungOf (transcodeToHLSArgs true "input.mp4" "out") 0 =
      some ⟨1080, 5000, 5350, 7500⟩ ∧
    ¬ (2 * 7500 = 3 * 5350) := by
  decide

/-- C7 (amended): the built ffmpeg arguments encode exactly four rungs —
1080p@5000k, 720p@3000k, 480p@1500k, 360p@800k and no fifth — and for each
rung the max-rate is exactly 7% above the target bitrate while the buffer
size equals 1.5 times the rung's target bitrate (not 1.5 times its
max-rate). -/
theorem transcodeToHLS_ladder
    (hasAudio : Bool) (ip od : String) (hnotin : ip ∉ rungFlags) :
    rungOf (transcodeToHLSArgs hasAudio ip od) 0 =
      some ⟨1080, 5000, 5350, 7500⟩ ∧
    rungOf (transcodeToHLSArgs hasAudio ip od) 1 =
      some ⟨720, 3000, 3210, 4500⟩ ∧
    rungOf (transcodeToHLSArgs hasAudio ip od) 2 =
      some ⟨480, 1500, 1605, 2250⟩ ∧
    rungOf (transcodeToHLSArgs hasAudio ip od) 3 =
      some ⟨360, 800, 856, 1200⟩ ∧
    rungOf (transcodeToHLSArgs hasAudio ip od) 4 = none ∧
    (∀ r ∈ [(⟨1080, 5000, 5350, 7500⟩ : Rung), ⟨720, 3000, 3210, 4500⟩,
        ⟨480, 1500, 1605, 2250⟩, ⟨360, 800, 856, 1200⟩],
      100 * r.maxrateK = 107 * r.bitrateK ∧
      2 * r.bufsizeK = 3 * r.bitrateK) := by
  simp only [rungFlags, List.mem_cons, List.not_mem_nil, or_false,
    not_or] at hnotin
  obtain ⟨n1, n2, n3, n4, n5, n6, n7, n8, n9, n10, n11, n12, n13, n14, n15,
    n16, n17, n18, n19, n20, n21⟩ := hnotin
  have g0s : ("-s:v:" ++ toString (0 : Nat)) = "-s:v:0" := by decide
  have g0b : ("-b:v:" ++ toString (0 : Nat)) = "-b:v:0" := by decide
  have g0m : ("-maxrate:v:" ++ toString (0 : Nat)) = "-maxrate:v:0" := by decide
  have g0c : ("-bufsize:v:" ++ toString (0 : Nat)) = "-bufsize:v:0" := by decide
  have g1s : ("-s:v:" ++ toString (1 : Nat)) = "-s:v:1" := by decide
  have g1b : ("-b:v:" ++ toString (1 : Nat)) = "-b:v:1" := by decide
  have g1m : ("-maxrate:v:" ++ toString (1 : Nat)) = "-maxrate:v:1" := by decide
  have g1c : ("-bufsize:v:" ++ toString (1 : Nat)) = "-bufsize:v:1" := by decide
  have g2s : ("-s:v:" ++ toString (2 : Nat)) = "-s:v:2" := by decide
  have g2b : ("-b:v:" ++ toString (2 : Nat)) = "-b:v:2" := by decide
  have g2m : ("-maxrate:v:" ++ toString (2 : Nat)) = "-maxrate:v:2" := by decide
  have g2c : ("-bufsize:v:" ++ toString (2 : Nat)) = "-bufsize:v:2" := by decide
  have g3s : ("-s:v:" ++ toString (3 : Nat)) = "-s:v:3" := by decide
  have g3b : ("-b:v:" ++ toString (3 : Nat)) = "-b:v:3" := by decide
  have g3m : ("-maxrate:v:" ++ toString (3 : Nat)) = "-maxrate:v:3" := by decide
  have g3c : ("-bufsize:v:" ++ toString (3 : Nat)) = "-bufsize:v:3" := by decide
  have g4s : ("-s:v:" ++ toString (4 : Nat)) = "-s:v:4" := by decide
  have g4b : ("-b:v:" ++ toString (4 : Nat)) = "-b:v:4" := by decide
  have g4m : ("-maxrate:v:" ++ toString (4 : Nat)) = "-maxrate:v:4" := by decide
  have g4c : ("-bufsize:v:" ++ toString (4 : Nat)) = "-bufsize:v:4" := by decide
  have p1 : heightOf "1920x1080" = some 1080 := by decide
  have p2 : heightOf "1280x720" = some 720 := by decide
  have p3 : heightOf "854x480" = some 480 := by decide
  have p4 : heightOf "640x360" = some 360 := by decide
  have q1 : parseKilo "5000k" = some 5000 := by decide
  have q2 : parseKilo "5350k" = some 5350 := by decide
  have q3 : parseKilo "7500k" = some 7500 := by decide
  have q4 : parseKilo "3000k" = some 3000 := by decide
  have q5 : parseKilo "3210k" = some 3210 := by decide
  have q6 : parseKilo "4500k" = some 4500 := by decide
  have q7 : parseKilo "1500k" = some 1500 := by decide
  have q8 : parseKilo "1605k" = some 1605 := by decide
  have q9 : parseKilo "2250k" = some 2250 := by decide
  have q10 : parseKilo "800k" = some 800 := by decide
  have q11 : parseKilo "856k" = some 856 := by decide
  have q12 : parseKilo "1200k" = some 1200 := by decide
  have d1 : od ++ "/v%v/seg-%03d.ts" ≠ "-s:v:4" := string_append_ne (by decide)
  have d2 : od ++ "/v%v/playlist.m3u8" ≠ "-s:v:4" :=
    string_append_ne (by decide)
  have d3 : od ++ "/v%v/seg-%03d.ts" ≠ "-b:v:4" := string_append_ne (by decide)
  have d4 : od ++ "/v%v/playlist.m3u8" ≠ "-b:v:4" :=
    string_append_ne (by decide)
  have d5 : od ++ "/v%v/seg-%03d.ts" ≠ "-maxrate:v:4" :=
    string_append_ne (by decide)
  have d6 : od ++ "/v%v/playlist.m3u8" ≠ "-maxrate:v:4" :=
    string_append_ne (by decide)
  have d7 : od ++ "/v%v/seg-%03d.ts" ≠ "-bufsize:v:4" :=
    string_append_ne (by decide)
  have d8 : od ++ "/v%v/playlist.m3u8" ≠ "-bufsize:v:4" :=
    string_append_ne (by decide)
  cases hasAudio <;>
    refine ⟨?_, ?_, ?_, ?_, ?_, by decide⟩ <;>
    simp [rungOf, transcodeToHLSArgs, argValue, g0s, g0b, g0m, g0c, g1s, g1b,
      g1m, g1c, g2s, g2b, g2m, g2c, g3s, g3b, g3m, g3c, g4s, g4b, g4m, g4c,
      p1, p2, p3, p4, q1, q2, q3, q4, q5, q6, q7, q8, q9, q10, q11, q12,
      n1, n2, n3, n4, n5, n6, n7, n8, n9, n10, n11, n12, n13, n14, n15, n16,
      n17, n18, n19, n20, n21, d1, d2, d3, d4, d5, d6, d7, d8]

theorem transcodeToHLS_ladder_witness :
    rungOf (transcodeToHLSArgs true "in.mp4" "hls") 0 =
      some ⟨1080, 5000, 5350, 7500⟩ ∧
    rungOf (transcodeToHLSArgs true "in.mp4" "hls") 1 =
      some ⟨720, 3000, 3210, 4500⟩ ∧
    rungOf (transcodeToHLSArgs true "in.mp4" "hls") 2 =
      some ⟨480, 1500, 1605, 2250⟩ ∧
    rungOf (transcodeToHLSArgs true "in.mp4" "hls") 3 =
      some ⟨360, 800, 856, 1200⟩ ∧
    rungOf (transcodeToHLSArgs true "in.mp4" "hls") 4 = none ∧
    (∀ r ∈ [(⟨1080, 5000, 5350, 7500⟩ : Rung), ⟨720, 3000, 3210, 4500⟩,
        ⟨480, 1500, 1605, 2250⟩, ⟨360, 800, 856, 1200⟩],
      100 * r.maxrateK = 107 * r.bitrateK ∧
      2 * r.bufsizeK = 3 * r.bitrateK) :=
  transcodeToHLS_ladder true "in.mp4" "hls" (by decide)

/-- The ordering `ORDER BY a.created_at DESC` of ListAssets: newest first. -/
def newerFirst (a b : Asset) : Prop := b.createdAt ≤ a.createdAt

instance : DecidableRel newerFirst := fun a b =>
  inferInstanceAs (Decidable (b.createdAt ≤ a.createdAt))

instance : IsTotal Asset newerFirst :=
  ⟨fun a b => Nat.le_total b.createdAt a.createdAt⟩

instance : IsTrans Asset newerFirst :=
  ⟨fun _ _ _ hab hbc => le_trans hbc hab⟩

/-- The response body of `GET /v1/media`: `{assets, total}`. -/
structure ListResponse where
  assets : List Asset
  total : Nat
deriving DecidableEq, Repr

/-- `ListAssets` from video.go lines 410-458: `SELECT ... ORDER BY
a.created_at DESC LIMIT 50` and a response whose `total` is the length of
the returned page (`len(assets)`), not a server-wide count. -/
def listAssets (assets : List Asset) : ListResponse :=
  let page := (List.insertionSort newerFirst assets).take 50
  ⟨page, page.length⟩

/-- C10: ListAssets returns at most 50 assets, ordered newest first by
creation time; `total` equals the size of the returned page, so whenever
more than 50 assets exist `total` is strictly smaller than the server-wide
asset count (and never exceeds 50). -/
theorem listAssets_spec (assets : List Asset) :
    (listAssets assets).assets.length ≤ 50 ∧
    (listAssets assets).total = (listAssets assets).assets.length ∧
    List.Sorted newerFirst (listAssets assets).assets ∧
    (50 < assets.length → (listAssets assets).total < assets.length) := by
  refine ⟨?_, rfl, ?_, ?_⟩
  · simp only [listAssets]
    rw [List.length_take]
    exact min_le_left _ _
  · simp only [listAssets]
    exact List.Pairwise.sublist (List.take_sublist _ _)
      (List.sorted_insertionSort newerFirst assets)
  · intro hlen
    simp only [listAssets]
    rw [List.length_take, List.length_insertionSort]
    omega

/-- An asset with creation time `i` for the C10 witness population. -/
def witnessAsset (i : Nat) : Asset :=
  ⟨i, AssetKind.image, AssetState.ready, "media-originals",
    "2025/01/01/w.jpg", "w.jpg", "image/jpeg", 1, i⟩

/-- Fifty-one assets, more than one page. -/
def manyAssets : List Asset := (List.range 51).map witnessAsset

theorem listAssets_spec_witness :
    (listAssets manyAssets).total < manyAssets.length := by
  have h := listAssets_spec manyAssets
  exact h.2.2.2 (by simp [manyAssets])

end Mediapod
